import Mathlib

/-!
Shallow embedding of the RaceMonitor race-timing handler
(lib/RaceTimeHandlerModule.py). Python strings are modelled as
character lists; the dict from racer id to competitor is modelled as an
association list in insertion order with unique keys (dict insertion
appends, assignment to an existing key replaces in place). Integers are
modelled by Int where Python values can go negative (millisecond totals
derived from arbitrary wire strings) and by Nat where they cannot.
Logging is an external sink and is dropped from the embedding; every
Python try/except that feeds the logger is modelled by its non-raising
result value.
-/

/-- The characters Python str.strip removes (ASCII whitespace). -/
def isSpaceChar (c : Char) : Bool :=
  c = ' ' ∨ c = '\t' ∨ c = '\n' ∨ c = '\r' ∨ c = '\x0b' ∨ c = '\x0c'

/-- Model of Python str.strip(): drop whitespace from both ends. -/
def pyStrip (l : List Char) : List Char :=
  ((l.dropWhile isSpaceChar).reverse.dropWhile isSpaceChar).reverse

/-- Model of Python str.split(sep) for a one-character separator:
always returns at least one piece, keeps empty pieces. -/
def splitOnChar (sep : Char) : List Char → List (List Char)
  | [] => [[]]
  | c :: rest =>
    match splitOnChar sep rest with
    | [] => [[]]
    | h :: t => if c = sep then [] :: h :: t else (c :: h) :: t

/-- Model of Python str.isdigit restricted to ASCII digits (the only
characters the wire protocol carries in numeric fields). -/
def isdigitStr (l : List Char) : Bool :=
  !l.isEmpty && l.all Char.isDigit

/-- Numeric value of a list of ASCII digits. -/
def digitsToNat (l : List Char) : Nat :=
  l.foldl (fun a c => a * 10 + (c.toNat - 48)) 0

/-- Model of Python int(s): optional surrounding whitespace, optional
sign, then at least one digit; none models a raised ValueError. -/
def pyInt (l : List Char) : Option Int :=
  match pyStrip l with
  | '-' :: rest => if isdigitStr rest then some (-(digitsToNat rest : Int)) else none
  | '+' :: rest => if isdigitStr rest then some ((digitsToNat rest : Int)) else none
  | t => if isdigitStr t then some ((digitsToNat t : Int)) else none

/-- Collect a list of optional ints, failing if any element failed. -/
def allSome : List (Option Int) → Option (List Int)
  | [] => some []
  | none :: _ => none
  | some x :: t => (allSome t).map (fun r => x :: r)

/-- Decimal rendering of a natural number, as Python str does. -/
def natToChars (n : Nat) : List Char :=
  Nat.toDigits 10 n

/-- Left pad with zeros to the given width, as the format specifier 0Nd. -/
def zeroPad (w : Nat) (d : List Char) : List Char :=
  List.replicate (w - d.length) '0' ++ d

/-- Model of the f-string field 02d. -/
def pad2 (n : Nat) : List Char := zeroPad 2 (natToChars n)

/-- Model of the f-string field 03d. -/
def pad3 (n : Nat) : List Char := zeroPad 3 (natToChars n)

/-- True on lines the batch loop does not skip. -/
def nonBlank (l : List Char) : Bool := !(pyStrip l).isEmpty

/-- The sentinel time string the codec treats as no time. -/
def sentinelTime : List Char := ("00:59:59.999").toList

inductive SortMode where
  | RACE : SortMode
  | QUALIFYING : SortMode
deriving DecidableEq, Inhabited, Repr

/-- One entrant, with the same fields as the Python dataclass. -/
structure Competitor where
  racer_id : List Char := []
  number : List Char := []
  transponder : List Char := []
  first_name : List Char := []
  last_name : List Char := []
  nationality : List Char := []
  additional_data : List Char := []
  category : List Char := []
  category_description : List Char := []
  position : List Char := []
  laps : List Char := []
  total_time : List Char := []
  total_time_milliseconds : Int := 0
  best_position : List Char := []
  best_lap : List Char := []
  best_time : List Char := []
  best_time_milliseconds : Int := 0
  last_lap_time : List Char := []
  last_split_time : List Char := []
  data_updated : Bool := false
  calculated_diff : List Char := []
  calculated_gap : List Char := []
  display_position : List Char := []
  sort_mode : Int := 0
deriving DecidableEq, Inhabited, Repr

structure RaceClass where
  class_id : List Char := []
  description : List Char := []
deriving DecidableEq, Inhabited, Repr

/-- The session store.  The two Python dicts are association lists in
insertion order; keys are unique by construction (lookup before
append). -/
structure Session where
  session_id : List Char := []
  session_name : List Char := []
  track_name : List Char := []
  track_length : List Char := []
  current_time : List Char := []
  session_time : List Char := []
  time_to_go : List Char := []
  laps_to_go : List Char := []
  flag_status : List Char := []
  sort_mode : SortMode := SortMode.RACE
  classes : List (List Char × RaceClass) := []
  competitors : List (List Char × Competitor) := []
  sorted_competitors : List Competitor := []
deriving DecidableEq, Inhabited, Repr

/-- Model of Competitor.convert_time_to_milliseconds.  The Python
body catches every exception and returns 0; each failing parse step
(unpacking a split with the wrong number of pieces, int on a
non-numeric piece) is therefore mapped to 0 here. -/
def Competitor.convert_time_to_milliseconds (s : List Char) : Int :=
  if s = [] ∨ s = sentinelTime then 0
  else
    let headParse : Option (List Char × Int) :=
      if ('.') ∈ s then
        match splitOnChar '.' s with
        | [tp, mp] => (pyInt mp).map (fun ms => (tp, ms))
        | _ => none
      else some (s, 0)
    match headParse with
    | none => 0
    | some (tp, ms) =>
      match allSome ((splitOnChar ':' tp).map pyInt) with
      | none => 0
      | some parts =>
        if parts.length > 3 then 0
        else
          match List.replicate (3 - parts.length) (0 : Int) ++ parts with
          | [h, m, sec] => h * 3600000 + m * 60000 + sec * 1000 + ms
          | _ => 0

/-- Model of Competitor.set_total_time. -/
def Competitor.set_total_time (c : Competitor) (time_str : List Char) : Competitor :=
  if time_str ≠ [] ∧ time_str ≠ sentinelTime then
    { c with total_time := time_str,
             total_time_milliseconds := Competitor.convert_time_to_milliseconds time_str }
  else
    { c with total_time := time_str, total_time_milliseconds := 0 }

/-- Model of Competitor.set_best_time. -/
def Competitor.set_best_time (c : Competitor) (time_str : List Char) : Competitor :=
  if time_str ≠ [] ∧ time_str ≠ sentinelTime then
    { c with best_time := time_str,
             best_time_milliseconds := Competitor.convert_time_to_milliseconds time_str }
  else
    { c with best_time := time_str, best_time_milliseconds := 0 }

example : Competitor.convert_time_to_milliseconds (("00:20:02.500").toList) = 1202500 := by decide
example : Competitor.convert_time_to_milliseconds (("00:59:59.999").toList) = 0 := by decide
example : Competitor.convert_time_to_milliseconds (("0.-5").toList) = -5 := by decide
example : Competitor.convert_time_to_milliseconds (("00:00:00.000").toList) = 0 := by decide

/-- Model of Session.get_position_number: int(position) when the string
is non-empty and all digits, 9999 otherwise (the try/except around the
int call never fires for ASCII digit strings). -/
def Session.get_position_number (position : List Char) : Int :=
  if isdigitStr position then (digitsToNat position : Int) else 9999

/-- Sort key type: all comparisons in the Python sort keys are mapped
onto a lexicographic 4-tuple of integers. -/
abbrev SortKey4 := Int × Int × Int × Int

/-- Lexicographic order on the 4-tuple sort keys. -/
def keyLe (a b : SortKey4) : Prop :=
  a.1 < b.1 ∨ (a.1 = b.1 ∧ (a.2.1 < b.2.1 ∨ (a.2.1 = b.2.1 ∧
    (a.2.2.1 < b.2.2.1 ∨ (a.2.2.1 = b.2.2.1 ∧ a.2.2.2 ≤ b.2.2.2)))))

instance : DecidableRel keyLe := fun a b => by
  unfold keyLe; infer_instance

/-- RACE-mode sort key of the Python lambda: position number, negated
lap count when laps is numeric else 0, then total time with the
float inf branch encoded as a flag component: the pair (1, 0) stands
for inf and (0, ms) for a finite positive total. -/
def raceKey (c : Competitor) : SortKey4 :=
  (Session.get_position_number c.position,
   if isdigitStr c.laps then -(digitsToNat c.laps : Int) else 0,
   if c.total_time_milliseconds > 0 then 0 else 1,
   if c.total_time_milliseconds > 0 then c.total_time_milliseconds else 0)

/-- QUALIFYING-mode sort key: best time with the inf flag encoding,
then best position number.  The last component is unused padding. -/
def qualKey (c : Competitor) : SortKey4 :=
  (if c.best_time_milliseconds > 0 then 0 else 1,
   if c.best_time_milliseconds > 0 then c.best_time_milliseconds else 0,
   Session.get_position_number c.best_position,
   0)

def raceRel (a b : Competitor) : Prop := keyLe (raceKey a) (raceKey b)

def qualRel (a b : Competitor) : Prop := keyLe (qualKey a) (qualKey b)

instance : DecidableRel raceRel := fun a b => by unfold raceRel; infer_instance

instance : DecidableRel qualRel := fun a b => by unfold qualRel; infer_instance

instance : IsTotal SortKey4 keyLe := by
  constructor; intro a b
  obtain ⟨a1, a2, a3, a4⟩ := a
  obtain ⟨b1, b2, b3, b4⟩ := b
  unfold keyLe; simp only []; omega

instance : IsTrans SortKey4 keyLe := by
  constructor; intro a b c hab hbc
  obtain ⟨a1, a2, a3, a4⟩ := a
  obtain ⟨b1, b2, b3, b4⟩ := b
  obtain ⟨c1, c2, c3, c4⟩ := c
  unfold keyLe at *; simp only [] at *; omega

instance : IsTotal Competitor raceRel := by
  constructor; intro a b; exact IsTotal.total (r := keyLe) _ _

instance : IsTrans Competitor raceRel := by
  constructor; intro a b c; exact IsTrans.trans (r := keyLe) _ _ _

instance : IsTotal Competitor qualRel := by
  constructor; intro a b; exact IsTotal.total (r := keyLe) _ _

instance : IsTrans Competitor qualRel := by
  constructor; intro a b c; exact IsTrans.trans (r := keyLe) _ _ _

/-- The stable sort of Session.sort_competitors on a list of
competitors.  Python list.sort is a stable sort by the mode key;
insertion sort by the same total preorder computes the identical
output. -/
def sortedByMode (mode : SortMode) (l : List Competitor) : List Competitor :=
  match mode with
  | SortMode.QUALIFYING => List.insertionSort qualRel l
  | SortMode.RACE => List.insertionSort raceRel l

/-- Model of Session.sort_competitors. -/
def Session.sort_competitors (s : Session) : Session :=
  { s with sorted_competitors := sortedByMode s.sort_mode (s.competitors.map Prod.snd) }

/-- Model of Session._format_time_difference.  Its Python argument is
always the absolute value of a difference, hence a Nat here. -/
def Session.format_time_difference (t : Nat) : List Char :=
  if t = 0 then []
  else
    let hours := t / 3600000
    let minutes := t % 3600000 / 60000
    let seconds := t % 60000 / 1000
    let ms := t % 1000
    if hours > 0 then
      '+' :: (pad2 hours ++ ':' :: (pad2 minutes ++ ':' :: (pad2 seconds ++ '.' :: pad3 ms)))
    else if minutes > 0 then
      '+' :: (pad2 minutes ++ ':' :: (pad2 seconds ++ '.' :: pad3 ms))
    else
      '+' :: (pad2 seconds ++ '.' :: pad3 ms)

/-- The f-string rendering of the lap-difference result. -/
def lapString (n : Int) : List Char :=
  '+' :: (natToChars n.toNat ++ (if n = 1 then (" LAP").toList else (" LAPS").toList))

/-- Model of Session._calculate_time_difference. -/
def Session.calculate_time_difference (slower faster : Competitor)
    (slower_best_lap_ms : Int) : List Char :=
  if faster.total_time_milliseconds = 0 then []
  else
    let slower_laps : Int := if isdigitStr slower.laps then (digitsToNat slower.laps : Int) else 0
    let faster_laps : Int := if isdigitStr faster.laps then (digitsToNat faster.laps : Int) else 0
    let lap_diff := faster_laps - slower_laps
    if lap_diff > 0 ∧ slower_best_lap_ms > 0 ∧
        slower.total_time_milliseconds - faster.total_time_milliseconds > slower_best_lap_ms then
      lapString lap_diff
    else
      Session.format_time_difference
        (slower.total_time_milliseconds - faster.total_time_milliseconds).natAbs

/-- Model of Session.calculate_gaps_and_diffs as a pure function on the
sorted list.  The Python loop reads only fields it never writes
(lap counts and millisecond totals), so reading from the input list is
equivalent to the in-place mutation. -/
def Session.calculate_gaps_and_diffs (l : List Competitor) : List Competitor :=
  l.enum.map (fun p =>
    let i := p.1
    let cur := p.2
    if i = 0 then { cur with calculated_gap := [], calculated_diff := [] }
    else if cur.total_time_milliseconds = 0 then
      { cur with calculated_gap := [], calculated_diff := [] }
    else
      { cur with
        calculated_gap :=
          Session.calculate_time_difference cur (l.getD (i - 1) default)
            cur.best_time_milliseconds,
        calculated_diff :=
          Session.calculate_time_difference cur (l.getD 0 default)
            cur.best_time_milliseconds })

/-- Model of Session.reset_session.  The Python body clears the two
maps, eight of the nine scalar fields and the sorted list; it does not
touch track_length or sort_mode. -/
def Session.reset_session (s : Session) : Session :=
  { s with classes := [], competitors := [],
           session_id := [], session_name := [], track_name := [],
           current_time := [], session_time := [], time_to_go := [],
           laps_to_go := [], flag_status := [], sorted_competitors := [] }

/-- First binding of a key in an association list (Python dict lookup). -/
def assocFind {β : Type} (m : List (List Char × β)) (k : List Char) : Option β :=
  match m with
  | [] => none
  | (k0, v0) :: t => if k0 = k then some v0 else assocFind t k

/-- Python dict assignment: replace the binding in place when the key
is present, append otherwise. -/
def assocSet {β : Type} (m : List (List Char × β)) (k : List Char) (v : β) :
    List (List Char × β) :=
  match m with
  | [] => [(k, v)]
  | (k0, v0) :: t => if k0 = k then (k0, v) :: t else (k0, v0) :: assocSet t k v

/-- Model of Session.get_competitor followed by in-place mutation of
the returned shared object: look up the competitor (creating the
default entry keyed by racer_id on a miss, as get_competitor does),
apply the field updates, and store the result back under the key. -/
def Session.updateCompetitor (s : Session) (racer_id : List Char)
    (f : Competitor → Competitor) : Session :=
  let c := match assocFind s.competitors racer_id with
    | some c0 => c0
    | none => { racer_id := racer_id }
  { s with competitors := assocSet s.competitors racer_id (f c) }

/-- Model of RaceTimingHandler.handle_race_progress_data. -/
def Session.handle_race_progress_data (s : Session) (elements : List (List Char)) : Session :=
  if elements.length ≥ 6 then
    { s with laps_to_go := elements.getD 1 [],
             time_to_go := elements.getD 2 [],
             current_time := elements.getD 3 [],
             session_time := elements.getD 4 [],
             flag_status := pyStrip (elements.getD 5 []) }
  else s

/-- Model of RaceTimingHandler.handle_driver_data. -/
def Session.handle_driver_data (s : Session) (elements : List (List Char)) : Session :=
  if elements.length ≥ 8 then
    s.updateCompetitor (elements.getD 1 []) (fun c =>
      { c with number := elements.getD 2 [],
               transponder := elements.getD 3 [],
               first_name := elements.getD 4 [],
               last_name := elements.getD 5 [],
               nationality := elements.getD 6 [],
               category := elements.getD 7 [] })
  else s

/-- Model of RaceTimingHandler.handle_race_session_data. -/
def Session.handle_race_session_data (s : Session) (elements : List (List Char)) : Session :=
  if elements.length ≥ 3 then
    { s with session_id := elements.getD 1 [], session_name := elements.getD 2 [] }
  else s

/-- Model of RaceTimingHandler.handle_race_class_data. -/
def Session.handle_race_class_data (s : Session) (elements : List (List Char)) : Session :=
  if elements.length ≥ 3 then
    let race_class : RaceClass :=
      { class_id := elements.getD 1 [], description := elements.getD 2 [] }
    { s with classes := assocSet s.classes (elements.getD 1 []) race_class }
  else s

/-- Model of RaceTimingHandler.handle_extended_driver_data. -/
def Session.handle_extended_driver_data (s : Session) (elements : List (List Char)) : Session :=
  if elements.length ≥ 8 then
    s.updateCompetitor (elements.getD 1 []) (fun c =>
      { c with number := elements.getD 2 [],
               category := elements.getD 3 [],
               first_name := elements.getD 4 [],
               last_name := elements.getD 5 [],
               nationality := elements.getD 6 [],
               additional_data := elements.getD 7 [] })
  else s

/-- Model of RaceTimingHandler.handle_track_data. -/
def Session.handle_track_data (s : Session) (elements : List (List Char)) : Session :=
  if elements.length ≥ 3 then
    if elements.getD 1 [] = ("TRACKNAME").toList then
      { s with track_name := elements.getD 2 [] }
    else if elements.getD 1 [] = ("TRACKLENGTH").toList then
      { s with track_length := elements.getD 2 [] }
    else s
  else s

/-- Model of RaceTimingHandler.handle_race_position_data. -/
def Session.handle_race_position_data (s : Session) (elements : List (List Char)) : Session :=
  if elements.length ≥ 5 then
    s.updateCompetitor (elements.getD 2 []) (fun c =>
      let new_position := elements.getD 1 []
      let new_laps := elements.getD 3 []
      let new_total_time := elements.getD 4 []
      let c1 := if c.position ≠ new_position ∨ c.laps ≠ new_laps ∨
          c.total_time ≠ new_total_time then { c with data_updated := true } else c
      Competitor.set_total_time { c1 with position := new_position, laps := new_laps }
        new_total_time)
  else s

/-- Model of RaceTimingHandler.handle_best_lap_time_data. -/
def Session.handle_best_lap_time_data (s : Session) (elements : List (List Char)) : Session :=
  if elements.length ≥ 5 then
    s.updateCompetitor (elements.getD 2 []) (fun c =>
      let new_best_position := elements.getD 1 []
      let new_best_lap := elements.getD 3 []
      let new_best_time := elements.getD 4 []
      let c1 := if c.best_position ≠ new_best_position ∨ c.best_lap ≠ new_best_lap ∨
          c.best_time ≠ new_best_time then { c with data_updated := true } else c
      Competitor.set_best_time
        { c1 with best_position := new_best_position, best_lap := new_best_lap }
        new_best_time)
  else s

/-- Model of RaceTimingHandler.handle_last_lap_time_data. -/
def Session.handle_last_lap_time_data (s : Session) (elements : List (List Char)) : Session :=
  if elements.length ≥ 4 then
    s.updateCompetitor (elements.getD 1 []) (fun c =>
      { Competitor.set_total_time { c with last_lap_time := elements.getD 2 [] }
          (elements.getD 3 []) with data_updated := true })
  else s

/-- Model of RaceTimingHandler.handle_sort_mode_data. -/
def Session.handle_sort_mode_data (s : Session) (elements : List (List Char)) : Session :=
  if elements.length ≥ 2 then
    if elements.getD 1 [] = ("qualifying").toList then
      { s with sort_mode := SortMode.QUALIFYING }
    else
      { s with sort_mode := SortMode.RACE }
  else s

/-- The field list of one line: split on commas, then delete every
double-quote character, exactly as the replace call in process_data. -/
def parseElements (line : List Char) : List (List Char) :=
  (splitOnChar ',' line).map (List.filter (fun c => ¬ c = '"'))

/-- The tag dispatch of process_data on the parsed field list (the
match statement on the command tag; the guard on an empty field list
mirrors the continue on falsy elements, which never fires since split
always yields at least one piece). -/
def Session.dispatchCommand (s : Session) (elements : List (List Char)) : Session :=
  if elements = [] then s
  else if elements.getD 0 [] = ("$F").toList then s.handle_race_progress_data elements
  else if elements.getD 0 [] = ("$A").toList then s.handle_driver_data elements
  else if elements.getD 0 [] = ("$B").toList then s.handle_race_session_data elements
  else if elements.getD 0 [] = ("$C").toList then s.handle_race_class_data elements
  else if elements.getD 0 [] = ("$COMP").toList then s.handle_extended_driver_data elements
  else if elements.getD 0 [] = ("$E").toList then s.handle_track_data elements
  else if elements.getD 0 [] = ("$G").toList then s.handle_race_position_data elements
  else if elements.getD 0 [] = ("$H").toList then s.handle_best_lap_time_data elements
  else if elements.getD 0 [] = ("$I").toList then s.reset_session
  else if elements.getD 0 [] = ("$J").toList then s.handle_last_lap_time_data elements
  else if elements.getD 0 [] = ("$RMS").toList then s.handle_sort_mode_data elements
  else s

/-- Dispatch of one already-accepted line inside process_data. -/
def Session.processLine (s : Session) (line : List Char) : Session :=
  s.dispatchCommand (parseElements line)

/-- The line loop of process_data over the session state.  The flag is
the data_updated local: it is set after the match statement for every
line that was not skipped as blank, whatever its tag.  No modelled
handler raises, matching the Python handlers whose only possible
exception source (int conversion inside the codec) is caught locally. -/
def Session.processLines (s : Session) (dat : List Char) : Session × Bool :=
  (splitOnChar '\n' (pyStrip dat)).foldl
    (fun acc line =>
      if pyStrip line = [] then acc else (acc.1.processLine line, true))
    (s, false)

/-- One row of the competitors snapshot table. -/
structure Row where
  pos : List Char := []
  num : List Char := []
  name : List Char := []
  laps : List Char := []
  time : List Char := []
  best : List Char := []
  diff : List Char := []
  gap : List Char := []
  racerID : List Char := []
  transponder : List Char := []
  category : List Char := []
  categoryDesc : List Char := []
  bestLap : List Char := []
  lastLap : List Char := []
deriving DecidableEq, Inhabited, Repr

/-- The single row of the session snapshot table. -/
structure SessionRow where
  sessionID : List Char := []
  sessionName : List Char := []
  trackName : List Char := []
  trackLength : List Char := []
  currentTime : List Char := []
  sessionTime : List Char := []
  timeToGo : List Char := []
  lapsToGo : List Char := []
  flagStatus : List Char := []
  sortModeName : List Char := []
deriving DecidableEq, Inhabited, Repr

/-- One competitors-table row, from the snapshot loop in
handle_session_update (i is the 0-based index in the sorted list). -/
def rowOf (i : Nat) (c : Competitor) : Row :=
  { pos := if c.position ≠ [] then c.position else natToChars (i + 1),
    num := c.number,
    name :=
      (let n := pyStrip (c.first_name ++ ' ' :: c.last_name)
       if n = [] then ("Driver ").toList ++ c.racer_id else n),
    laps := c.laps,
    time := if c.total_time ≠ [] then c.total_time else ("-").toList,
    best := if c.best_time ≠ [] then c.best_time else ("-").toList,
    diff := if c.calculated_diff ≠ [] then c.calculated_diff else ("-").toList,
    gap := if c.calculated_gap ≠ [] then c.calculated_gap else ("-").toList,
    racerID := c.racer_id,
    transponder := c.transponder,
    category := c.category,
    categoryDesc := c.category_description,
    bestLap := c.best_lap,
    lastLap := c.last_lap_time }

/-- The session-table row of handle_session_update. -/
def sessionRowOf (s : Session) : SessionRow :=
  { sessionID := s.session_id,
    sessionName := s.session_name,
    trackName := s.track_name,
    trackLength := s.track_length,
    currentTime := s.current_time,
    sessionTime := s.session_time,
    timeToGo := s.time_to_go,
    lapsToGo := s.laps_to_go,
    flagStatus := s.flag_status,
    sortModeName := match s.sort_mode with
      | SortMode.RACE => ("RACE").toList
      | SortMode.QUALIFYING => ("QUALIFYING").toList }

/-- Model of RaceTimingHandler.handle_session_update: sort, compute
gaps and diffs, emit the two tables, and clear data_updated on every
sorted competitor.  The Python loop mutates shared objects, so the
cleared flags and computed gap strings are also visible through the
competitor dict; no later read observes those presentation fields
through the dict (sort keys and handlers never read them), so the
embedding keeps the dict entries unchanged. -/
def Session.handle_session_update (s : Session) : Session × List Row × SessionRow :=
  let sorted1 := sortedByMode s.sort_mode (s.competitors.map Prod.snd)
  let sorted2 := Session.calculate_gaps_and_diffs sorted1
  let rows := sorted2.enum.map (fun p => rowOf p.1 p.2)
  let sorted3 := sorted2.map (fun c => { c with data_updated := false })
  ({ s with sorted_competitors := sorted3 }, rows, sessionRowOf s)

/-- The handler object: the session store, the two published snapshot
tables (empty data frames at construction), and the client lifecycle
state.  The websocket object is modelled by a generation counter
(0 = never assigned) and the listener thread by a count of started
workers. -/
structure RaceTimingHandler where
  session : Session := {}
  competitors_df : List Row := []
  session_df : List SessionRow := []
  running : Bool := false
  socketGen : Nat := 0
  workerCount : Nat := 0
deriving DecidableEq, Inhabited, Repr

/-- A fresh handler as built by the constructor. -/
def initialHandler : RaceTimingHandler := {}

/-- Model of RaceTimingHandler.process_data.  The second component
reports whether handle_session_update ran (the data_updated local at
the end of the batch loop). -/
def RaceTimingHandler.process_data (h : RaceTimingHandler) (dat : List Char) :
    RaceTimingHandler × Bool :=
  let (s1, updated) := h.session.processLines dat
  if updated then
    let (s2, rows, srow) := s1.handle_session_update
    ({ h with session := s2, competitors_df := rows, session_df := [srow] }, true)
  else
    ({ h with session := s1 }, false)

/-- Model of RaceTimingHandler.connect.  The ok flag selects whether
the try body (constructing the WebSocketApp, setting running, starting
the listener thread) succeeds or raises; the except arm logs and sets
running to False.  The second component tells whether an exception
escapes to the caller: the except clause swallows everything, so it is
always false. -/
def RaceTimingHandler.connect (h : RaceTimingHandler) (ok : Bool) :
    RaceTimingHandler × Bool :=
  if ok then
    ({ h with socketGen := h.socketGen + 1, running := true,
              workerCount := h.workerCount + 1 }, false)
  else
    ({ h with running := false }, false)

/-- Folding a list of frames through process_data (the receive loop). -/
def processFrames (h : RaceTimingHandler) (frames : List (List Char)) : RaceTimingHandler :=
  frames.foldl (fun acc f => (acc.process_data f).1) h

set_option maxRecDepth 10000

/-! Claim-side definitions, written from the wording of the spec so
they can be compared with the code-side definitions above. -/

/-- Modelled from the spec wording for the record parser: strip a
single leading and a single trailing ASCII double quote from a field,
and only when both are present. -/
def stripQuotesSpec (f : List Char) : List Char :=
  if 2 ≤ f.length ∧ f.head? = some '"' ∧ f.getLast? = some '"' then
    (f.drop 1).dropLast
  else f

/-- Modelled from the claim wording for the RACE sort key: the third
position of the triple is plus infinity exactly when the stored total
is 0 milliseconds, and the value itself otherwise (including negative
values). -/
def claimRaceKey (c : Competitor) : SortKey4 :=
  (Session.get_position_number c.position,
   if isdigitStr c.laps then -(digitsToNat c.laps : Int) else 0,
   if c.total_time_milliseconds = 0 then 1 else 0,
   if c.total_time_milliseconds = 0 then 0 else c.total_time_milliseconds)

def claimRaceRel (a b : Competitor) : Prop := keyLe (claimRaceKey a) (claimRaceKey b)

instance : DecidableRel claimRaceRel := fun a b => by unfold claimRaceRel; infer_instance

/-- A two-digit-per-component time string HH:MM:SS.mmm. -/
def renderTime (H M S ms : Nat) : List Char :=
  pad2 H ++ ':' :: (pad2 M ++ ':' :: (pad2 S ++ '.' :: pad3 ms))

/-- The left-zero-padding normalization of the round-trip claim:
re-pad the hour and minute components that format_time_difference
omits.  The three possible shapes of a non-empty formatted difference
with two-digit fields have lengths 13, 10 and 7. -/
def normalizePad (l : List Char) : List Char :=
  if l.length = 10 then '+' :: ('0' :: ('0' :: (':' :: l.drop 1)))
  else if l.length = 7 then
    '+' :: ('0' :: ('0' :: (':' :: ('0' :: ('0' :: (':' :: l.drop 1))))))
  else l

/-! Helper lemmas about the string primitives. -/

theorem splitOnChar_ne_nil (sep : Char) (l : List Char) : splitOnChar sep l ≠ [] := by
  induction l with
  | nil => simp [splitOnChar]
  | cons c rest ih =>
    simp only [splitOnChar]
    rcases hr : splitOnChar sep rest with _ | ⟨h, t⟩
    · exact absurd hr ih
    · by_cases hc : c = sep <;> simp [hc]

theorem splitOnChar_of_not_mem {sep : Char} {l : List Char} (h : sep ∉ l) :
    splitOnChar sep l = [l] := by
  induction l with
  | nil => simp [splitOnChar]
  | cons c rest ih =>
    simp only [List.mem_cons, not_or] at h
    have hc : ¬ c = sep := fun hcc => h.1 hcc.symm
    rw [splitOnChar, ih h.2]
    simp [hc]

theorem splitOnChar_append_cons {sep : Char} {xs : List Char} (ys : List Char)
    (h : sep ∉ xs) : splitOnChar sep (xs ++ sep :: ys) = xs :: splitOnChar sep ys := by
  induction xs with
  | nil =>
    simp only [List.nil_append, splitOnChar]
    rcases hr : splitOnChar sep ys with _ | ⟨hh, tt⟩
    · exact absurd hr (splitOnChar_ne_nil sep ys)
    · simp
  | cons c rest ih =>
    simp only [List.mem_cons, not_or] at h
    have hc : ¬ c = sep := fun hcc => h.1 hcc.symm
    rw [List.cons_append, splitOnChar, ih h.2]
    simp [hc]

theorem digitChar_isDigit : ∀ m < 10, (Nat.digitChar m).isDigit = true := by decide

theorem toDigitsCore_digits : ∀ (f n : Nat) (ds : List Char),
    (∀ c ∈ ds, c.isDigit = true) →
    ∀ c ∈ Nat.toDigitsCore 10 f n ds, c.isDigit = true := by
  intro f
  induction f with
  | zero => intro n ds hds c hc; exact hds c hc
  | succ f ih =>
    intro n ds hds c hc
    have hd : (Nat.digitChar (n % 10)).isDigit = true :=
      digitChar_isDigit _ (Nat.mod_lt _ (by omega))
    simp only [Nat.toDigitsCore] at hc
    by_cases hn : n / 10 = 0
    · rw [if_pos hn] at hc
      rcases List.mem_cons.mp hc with h1 | h1
      · exact h1 ▸ hd
      · exact hds c h1
    · rw [if_neg hn] at hc
      refine ih (n / 10) (Nat.digitChar (n % 10) :: ds) ?_ c hc
      intro c2 hc2
      rcases List.mem_cons.mp hc2 with h1 | h1
      · exact h1 ▸ hd
      · exact hds c2 h1

theorem natToChars_digits (n : Nat) : ∀ c ∈ natToChars n, c.isDigit = true := by
  intro c hc
  exact toDigitsCore_digits (n + 1) n [] (by intro c2 hc2; cases hc2) c hc

theorem pad2_digits : ∀ n < 100, (pad2 n).all Char.isDigit = true := by decide

theorem pad3_digits : ∀ n < 1000, (pad3 n).all Char.isDigit = true := by decide

theorem pad2_length : ∀ n < 100, (pad2 n).length = 2 := by decide

theorem pad3_length : ∀ n < 1000, (pad3 n).length = 3 := by decide

theorem pyInt_pad2 : ∀ n < 100, pyInt (pad2 n) = some ((n : Int)) := by decide

theorem pyInt_pad3 : ∀ n < 1000, pyInt (pad3 n) = some ((n : Int)) := by decide

theorem no_dot_colon_of_all_digit {l : List Char} (h : l.all Char.isDigit = true) :
    ('.') ∉ l ∧ (':') ∉ l := by
  rw [List.all_eq_true] at h
  constructor
  · intro hm; have := h _ hm; simp [Char.isDigit] at this
  · intro hm; have := h _ hm; simp [Char.isDigit] at this

theorem convert_renderTime {H M S ms : Nat} (hH : H < 100) (hM : M < 100) (hS : S < 100)
    (hms : ms < 1000) (hsent : renderTime H M S ms ≠ sentinelTime) :
    Competitor.convert_time_to_milliseconds (renderTime H M S ms)
      = ((H * 3600000 + M * 60000 + S * 1000 + ms : Nat) : Int) := by
  have hdH := no_dot_colon_of_all_digit (pad2_digits H hH)
  have hdM := no_dot_colon_of_all_digit (pad2_digits M hM)
  have hdS := no_dot_colon_of_all_digit (pad2_digits S hS)
  have hd3 := no_dot_colon_of_all_digit (pad3_digits ms hms)
  have hclock_nodot : ('.') ∉ (pad2 H ++ ':' :: (pad2 M ++ ':' :: pad2 S)) := by
    intro hmem
    rcases List.mem_append.mp hmem with hm | hm
    · exact hdH.1 hm
    · rcases List.mem_cons.mp hm with hm2 | hm2
      · exact absurd hm2 (by decide)
      · rcases List.mem_append.mp hm2 with hm3 | hm3
        · exact hdM.1 hm3
        · rcases List.mem_cons.mp hm3 with hm4 | hm4
          · exact absurd hm4 (by decide)
          · exact hdS.1 hm4
  have hsplit1 : splitOnChar '.' (renderTime H M S ms)
      = [pad2 H ++ ':' :: (pad2 M ++ ':' :: pad2 S), pad3 ms] := by
    have hshape : renderTime H M S ms
        = (pad2 H ++ ':' :: (pad2 M ++ ':' :: pad2 S)) ++ '.' :: pad3 ms := by
      simp [renderTime]
    rw [hshape, splitOnChar_append_cons _ hclock_nodot, splitOnChar_of_not_mem hd3.1]
  have hsplit2 : splitOnChar ':' (pad2 H ++ ':' :: (pad2 M ++ ':' :: pad2 S))
      = [pad2 H, pad2 M, pad2 S] := by
    rw [splitOnChar_append_cons _ hdH.2, splitOnChar_append_cons _ hdM.2,
        splitOnChar_of_not_mem hdS.2]
  have hne : renderTime H M S ms ≠ [] := by
    intro hcontra
    have hlen := congrArg List.length hcontra
    simp [renderTime, pad2_length H hH] at hlen
  have hdot : ('.') ∈ renderTime H M S ms := by
    simp [renderTime]
  unfold Competitor.convert_time_to_milliseconds
  rw [if_neg (by simp [hne, hsent])]
  simp only [if_pos hdot, hsplit1, pyInt_pad3 ms hms, Option.map_some', hsplit2,
    List.map_cons, List.map_nil, pyInt_pad2 H hH, pyInt_pad2 M hM, pyInt_pad2 S hS,
    allSome, List.length_cons, List.length_nil]
  norm_num

theorem renderTime_inj {H M S ms H2 M2 S2 ms2 : Nat} (hH : H < 100) (hM : M < 100)
    (hS : S < 100) (hms : ms < 1000) (hH2 : H2 < 100) (hM2 : M2 < 100) (hS2 : S2 < 100)
    (hms2 : ms2 < 1000) (heq : renderTime H M S ms = renderTime H2 M2 S2 ms2) :
    H = H2 ∧ M = M2 ∧ S = S2 ∧ ms = ms2 := by
  unfold renderTime at heq
  have pv : ∀ a b : Nat, a < 100 → b < 100 → pad2 a = pad2 b → a = b := by
    intro a b ha hb hab
    have h1 := (pyInt_pad2 a ha).symm.trans ((congrArg pyInt hab).trans (pyInt_pad2 b hb))
    have h2 := Option.some.inj h1
    exact_mod_cast h2
  have pv3 : ∀ a b : Nat, a < 1000 → b < 1000 → pad3 a = pad3 b → a = b := by
    intro a b ha hb hab
    have h1 := (pyInt_pad3 a ha).symm.trans ((congrArg pyInt hab).trans (pyInt_pad3 b hb))
    have h2 := Option.some.inj h1
    exact_mod_cast h2
  obtain ⟨e1, hrest⟩ :=
    List.append_inj heq (by rw [pad2_length H hH, pad2_length H2 hH2])
  obtain ⟨-, hrest2⟩ := List.cons.inj hrest
  obtain ⟨e2, hrest3⟩ :=
    List.append_inj hrest2 (by rw [pad2_length M hM, pad2_length M2 hM2])
  obtain ⟨-, hrest4⟩ := List.cons.inj hrest3
  obtain ⟨e3, hrest5⟩ :=
    List.append_inj hrest4 (by rw [pad2_length S hS, pad2_length S2 hS2])
  obtain ⟨-, e4⟩ := List.cons.inj hrest5
  exact ⟨pv _ _ hH hH2 e1, pv _ _ hM hM2 e2, pv _ _ hS hS2 e3, pv3 _ _ hms hms2 e4⟩

theorem format_decompose {T H M S ms : Nat} (hT : T = H * 3600000 + M * 60000 + S * 1000 + ms)
    (hM : M < 60) (hS : S < 60) (hms : ms < 1000) (hT0 : T ≠ 0) :
    Session.format_time_difference T =
      if H > 0 then '+' :: (pad2 H ++ ':' :: (pad2 M ++ ':' :: (pad2 S ++ '.' :: pad3 ms)))
      else if M > 0 then '+' :: (pad2 M ++ ':' :: (pad2 S ++ '.' :: pad3 ms))
      else '+' :: (pad2 S ++ '.' :: pad3 ms) := by
  have e1 : T / 3600000 = H := by omega
  have e2 : T % 3600000 / 60000 = M := by omega
  have e3 : T % 60000 / 1000 = S := by omega
  have e4 : T % 1000 = ms := by omega
  unfold Session.format_time_difference
  rw [if_neg hT0]
  simp only [e1, e2, e3, e4]

/-- C8.  The round-trip claim as frozen fails at the valid non-sentinel
time 00:00:00.000: it parses to 0 milliseconds, format_time_difference
maps 0 to the empty string, and no left-zero re-padding of the empty
string equals the expected time with its leading plus sign. -/
theorem C8_counterexample :
    renderTime 0 0 0 0 = ("00:00:00.000").toList
  ∧ normalizePad (Session.format_time_difference
      (Competitor.convert_time_to_milliseconds (renderTime 0 0 0 0)).toNat) = []
  ∧ ('+' :: renderTime 0 0 0 0) ≠ ([] : List Char) := by
  refine ⟨by decide, by decide, by decide⟩

/-- C8 (amended).  For every time of the form HH:MM:SS.mmm with H
below 24, M and S below 60 and mmm below 1000 that is neither the
sentinel 00:59:59.999 nor the all-zero time 00:00:00.000, parsing
yields the exact millisecond count and formatting the parsed count
equals the input with a leading plus sign after left-zero-padding
normalization. -/
theorem C8_time_roundtrip (H M S ms : Nat) (hH : H < 24) (hM : M < 60) (hS : S < 60)
    (hms : ms < 1000) (hsent : ¬(H = 0 ∧ M = 59 ∧ S = 59 ∧ ms = 999))
    (hzero : ¬(H = 0 ∧ M = 0 ∧ S = 0 ∧ ms = 0)) :
    Competitor.convert_time_to_milliseconds (renderTime H M S ms)
      = ((H * 3600000 + M * 60000 + S * 1000 + ms : Nat) : Int)
  ∧ normalizePad (Session.format_time_difference
      (Competitor.convert_time_to_milliseconds (renderTime H M S ms)).toNat)
      = '+' :: renderTime H M S ms := by
  have hs : sentinelTime = renderTime 0 59 59 999 := by decide
  have hne_sent : renderTime H M S ms ≠ sentinelTime := by
    intro heq
    rw [hs] at heq
    obtain ⟨a1, a2, a3, a4⟩ := renderTime_inj (by omega) (by omega) (by omega) hms
      (by decide) (by decide) (by decide) (by decide) heq
    exact hsent ⟨a1, a2, a3, a4⟩
  have hparse := convert_renderTime (by omega) (by omega) (by omega) hms hne_sent
  refine ⟨hparse, ?_⟩
  rw [hparse, Int.toNat_natCast]
  have hT0 : H * 3600000 + M * 60000 + S * 1000 + ms ≠ 0 := by omega
  rw [format_decompose rfl hM hS hms hT0]
  have hp2H := pad2_length H (by omega)
  have hp2M := pad2_length M (by omega)
  have hp2S := pad2_length S (by omega)
  have hp3 := pad3_length ms hms
  have hp0 : pad2 0 = ['0', '0'] := by decide
  by_cases hHpos : H > 0
  · rw [if_pos hHpos]
    have hlen : ('+' :: (pad2 H ++ ':' :: (pad2 M ++ ':' :: (pad2 S ++ '.' :: pad3 ms)))).length = 13 := by
      simp [hp2H, hp2M, hp2S, hp3]
    unfold normalizePad
    rw [hlen]
    norm_num [renderTime]
  · rw [if_neg hHpos]
    have hH0 : H = 0 := by omega
    by_cases hMpos : M > 0
    · rw [if_pos hMpos]
      have hlen : ('+' :: (pad2 M ++ ':' :: (pad2 S ++ '.' :: pad3 ms))).length = 10 := by
        simp [hp2M, hp2S, hp3]
      unfold normalizePad
      rw [hlen]
      norm_num [renderTime, hH0, hp0]
    · rw [if_neg hMpos]
      have hM0 : M = 0 := by omega
      have hlen : ('+' :: (pad2 S ++ '.' :: pad3 ms)).length = 7 := by
        simp [hp2S, hp3]
      unfold normalizePad
      rw [hlen]
      norm_num [renderTime, hH0, hM0, hp0]

/-- C8 witness: the time 00:00:02.500 round-trips. -/
theorem C8_time_roundtrip_witness :
    Competitor.convert_time_to_milliseconds (renderTime 0 0 2 500) = ((2500 : Nat) : Int)
  ∧ normalizePad (Session.format_time_difference
      (Competitor.convert_time_to_milliseconds (renderTime 0 0 2 500)).toNat)
      = '+' :: renderTime 0 0 2 500 :=
  C8_time_roundtrip 0 0 2 500 (by decide) (by decide) (by decide) (by decide)
    (by decide) (by decide)

/-- C1.  Counterexample to the claim as frozen: reset_session does not
return track_length to its empty default.  After processing a frame
setting the track length and then the reset record, the track length
is still 4309. -/
theorem C1_counterexample :
    (processFrames initialHandler
      [("$E,TRACKLENGTH,4309").toList, ("$I").toList]).session.track_length = ("4309").toList
  ∧ ("4309").toList ≠ ([] : List Char) :=
  ⟨by decide, by decide⟩

/-- C1 (amended).  Processing a reset record clears both maps, the
sorted list and every Session scalar except track_length, and leaves
sort_mode and track_length unchanged; in particular after a qualifying
sort-mode record followed by a reset record, sort_mode is QUALIFYING
and both maps are empty. -/
theorem C1_reset_behavior :
    (∀ s : Session,
      s.reset_session.classes = [] ∧ s.reset_session.competitors = [] ∧
      s.reset_session.session_id = [] ∧ s.reset_session.session_name = [] ∧
      s.reset_session.track_name = [] ∧ s.reset_session.current_time = [] ∧
      s.reset_session.session_time = [] ∧ s.reset_session.time_to_go = [] ∧
      s.reset_session.laps_to_go = [] ∧ s.reset_session.flag_status = [] ∧
      s.reset_session.sorted_competitors = [] ∧
      s.reset_session.sort_mode = s.sort_mode ∧
      s.reset_session.track_length = s.track_length)
  ∧ (∀ h : RaceTimingHandler,
      (processFrames h [("$RMS,qualifying").toList, ("$I").toList]).session.sort_mode
        = SortMode.QUALIFYING ∧
      (processFrames h [("$RMS,qualifying").toList, ("$I").toList]).session.competitors = [] ∧
      (processFrames h [("$RMS,qualifying").toList, ("$I").toList]).session.classes = []) := by
  exact ⟨fun s => ⟨rfl, rfl, rfl, rfl, rfl, rfl, rfl, rfl, rfl, rfl, rfl, rfl, rfl⟩,
    fun h => ⟨rfl, rfl, rfl⟩⟩

/-- C9.  Counterexample to the claim as frozen: a second connect call
while running is not rejected (it replaces the socket and starts a
second receive worker), and a failing connect does not surface the
error to the caller (the except clause swallows it). -/
theorem C9_counterexample :
    (initialHandler.connect true).1.running = true
  ∧ ((initialHandler.connect true).1.connect true).1.workerCount = 2
  ∧ ((initialHandler.connect true).1.connect true).1.socketGen = 2
  ∧ ((initialHandler.connect true).1.connect false).2 = false :=
  ⟨by decide, by decide, by decide, by decide⟩

/-- C9 (amended).  connect performs no running check: a successful call
always replaces the socket and starts one more worker, whatever the
prior state.  A failing connect leaves the client not running, keeps
the old socket and worker, and swallows the error instead of surfacing
it; no connect call ever propagates an exception. -/
theorem C9_connect_behavior :
    ∀ h : RaceTimingHandler,
      (h.connect false).1.running = false ∧ (h.connect false).2 = false ∧
      (h.connect false).1.socketGen = h.socketGen ∧
      (h.connect false).1.workerCount = h.workerCount ∧
      (h.connect true).1.running = true ∧
      (h.connect true).1.workerCount = h.workerCount + 1 ∧
      (h.connect true).1.socketGen = h.socketGen + 1 ∧
      (h.connect true).2 = false :=
  fun h => ⟨rfl, rfl, rfl, rfl, rfl, rfl, rfl, rfl⟩

/-- C4.  Counterexample to the claim as frozen: the parser removes a
double quote that appears on only one side of a field, while the
claimed rule keeps it. -/
theorem C4_counterexample :
    parseElements (("$B,").toList ++ '"' :: ("S1").toList)
        = [("$B").toList, ("S1").toList]
  ∧ (splitOnChar ',' (("$B,").toList ++ '"' :: ("S1").toList)).map stripQuotesSpec
        = [("$B").toList, '"' :: ("S1").toList]
  ∧ parseElements (("$B,").toList ++ '"' :: ("S1").toList)
      ≠ (splitOnChar ',' (("$B,").toList ++ '"' :: ("S1").toList)).map stripQuotesSpec :=
  ⟨by decide, by decide, by decide⟩

/-- C4 (amended).  Each parsed field is the corresponding raw
comma-separated field with every ASCII double quote deleted, wherever
it occurs: the result carries no double quote and is a subsequence of
the raw field. -/
theorem C4_parser_quote_removal :
    (∀ (line : List Char) (i : Nat),
      (parseElements line).getD i []
        = ((splitOnChar ',' line).getD i []).filter (fun c => ¬ c = '"'))
  ∧ (∀ f : List Char, ((f.filter (fun c => ¬ c = '"')).count '"') = 0)
  ∧ (∀ f : List Char, (f.filter (fun c => ¬ c = '"')).Sublist f) := by
  refine ⟨?_, ?_, ?_⟩
  · intro line i
    by_cases hi : i < (splitOnChar ',' line).length
    · have hi2 : i < (parseElements line).length := by
        simpa [parseElements] using hi
      rw [List.getD_eq_getElem _ _ hi2, List.getD_eq_getElem _ _ hi]
      simp [parseElements]
    · rw [List.getD_eq_default, List.getD_eq_default]
      · simp
      · omega
      · simp only [parseElements, List.length_map]; omega
  · intro f
    rw [List.count_eq_zero]
    intro hmem
    have hp := List.of_mem_filter hmem
    simp at hp
  · intro f
    exact List.filter_sublist f

theorem foldl_lines_snd (ls : List (List Char)) : ∀ (s : Session) (b : Bool),
    (ls.foldl (fun acc line => if pyStrip line = [] then acc
      else (acc.1.processLine line, true)) (s, b)).2 = (b || ls.any nonBlank) := by
  induction ls with
  | nil => intro s b; simp
  | cons l rest ih =>
    intro s b
    by_cases hl : pyStrip l = []
    · have hnb : nonBlank l = false := by simp [nonBlank, hl]
      simp only [List.foldl_cons, if_pos hl, List.any_cons, hnb, Bool.false_or]
      exact ih s b
    · have hnb : nonBlank l = true := by
        simp only [nonBlank, Bool.not_eq_true']
        cases hst : pyStrip l with
        | nil => exact absurd hst hl
        | cons a t => rfl
      simp only [List.foldl_cons, if_neg hl, List.any_cons, hnb, Bool.true_or, Bool.or_true]
      rw [ih]
      simp

/-- C3.  Counterexample to the claim as frozen: a frame whose only
line carries an unknown tag is counted as accepted by the batch loop
(the data_updated local is set after the match for every non-blank
line), so the ordering engine and snapshot builder still run and the
published session table is replaced. -/
theorem C3_counterexample :
    (initialHandler.process_data (("$XYZ,1").toList)).2 = true
  ∧ (initialHandler.process_data (("$XYZ,1").toList)).1.session_df
      ≠ initialHandler.session_df :=
  ⟨by decide, by decide⟩

/-- C3 (amended).  process_data runs the ordering engine and snapshot
builder exactly when the frame contains at least one line that is not
blank after stripping; lines with unknown tags or too few fields still
count, since no handler raises and the loop flags every non-blank
line. -/
theorem C3_update_iff (h : RaceTimingHandler) (dat : List Char) :
    (h.process_data dat).2 = true ↔
      ∃ line ∈ splitOnChar '\n' (pyStrip dat), nonBlank line = true := by
  have hsnd : (h.session.processLines dat).2
      = (splitOnChar '\n' (pyStrip dat)).any nonBlank := by
    unfold Session.processLines
    rw [foldl_lines_snd]
    simp
  have hpd : (h.process_data dat).2 = (h.session.processLines dat).2 := by
    unfold RaceTimingHandler.process_data
    rcases hp : h.session.processLines dat with ⟨s1, u⟩
    cases u <;> simp
  rw [hpd, hsnd, List.any_eq_true]

/-- C3 witness: the two-line frame with one blank and one position
line counts as accepted. -/
theorem C3_update_iff_witness :
    (initialHandler.process_data (("  \n$G,1,1,10,00:20:00.000").toList)).2 = true ↔
      ∃ line ∈ splitOnChar '\n' (pyStrip (("  \n$G,1,1,10,00:20:00.000").toList)),
        nonBlank line = true :=
  C3_update_iff initialHandler (("  \n$G,1,1,10,00:20:00.000").toList)

theorem keyLe_fst {a b : SortKey4} (h : keyLe a b) : a.1 ≤ b.1 := by
  rcases h with h1 | ⟨h1, -⟩
  · omega
  · omega

/-- The race frame with one negative millisecond total (the string
0.-5 parses to minus five milliseconds in Python). -/
def raceNegFrame : List Char := ("$G,1,1,5,0.-5\n$G,1,2,5,0.10").toList

def raceNegRun : RaceTimingHandler := processFrames initialHandler [raceNegFrame]

/-- C5.  Counterexample to the claim as frozen: the code maps every
non-positive total (not only a total of exactly 0) to plus infinity in
the third key component.  With two competitors of equal position and
laps, totals of minus 5 and plus 10 milliseconds, the code sorts the
positive total first while the claimed key sorts the negative total
first. -/
theorem C5_counterexample :
    raceNegRun.session.sorted_competitors.map (fun c => c.racer_id)
      = [("2").toList, ("1").toList]
  ∧ (List.insertionSort claimRaceRel (raceNegRun.session.competitors.map Prod.snd)).map
      (fun c => c.racer_id) = [("1").toList, ("2").toList]
  ∧ ([("2").toList, ("1").toList] : List (List Char)) ≠ [("1").toList, ("2").toList] :=
  ⟨by decide, by decide, by decide⟩

/-- C5 (amended).  RACE-mode sorting produces a permutation of the
competitor-map values ordered by the lexicographic triple of the code,
whose third component is plus infinity exactly when the stored total
is not positive (on non-negative totals this agrees with the claimed
inf-when-zero key); consequently, for any two entries of the sorted
output with numeric, distinct positions, the smaller position comes
first. -/
theorem C5_race_sort (l : List Competitor) :
    (sortedByMode SortMode.RACE l).Perm l
  ∧ List.Sorted raceRel (sortedByMode SortMode.RACE l)
  ∧ (∀ a b : Competitor, 0 ≤ a.total_time_milliseconds → 0 ≤ b.total_time_milliseconds →
      (raceRel a b ↔ claimRaceRel a b))
  ∧ (∀ (i j : Nat) (hi : i < (sortedByMode SortMode.RACE l).length)
      (hj : j < (sortedByMode SortMode.RACE l).length),
      isdigitStr ((sortedByMode SortMode.RACE l).get ⟨i, hi⟩).position = true →
      isdigitStr ((sortedByMode SortMode.RACE l).get ⟨j, hj⟩).position = true →
      digitsToNat ((sortedByMode SortMode.RACE l).get ⟨i, hi⟩).position <
        digitsToNat ((sortedByMode SortMode.RACE l).get ⟨j, hj⟩).position →
      i < j) := by
  have hkey : ∀ c : Competitor, 0 ≤ c.total_time_milliseconds → raceKey c = claimRaceKey c := by
    intro c hc
    unfold raceKey claimRaceKey
    by_cases hpos : c.total_time_milliseconds > 0
    · have h0 : ¬ c.total_time_milliseconds = 0 := by omega
      simp [hpos, h0]
    · have h0 : c.total_time_milliseconds = 0 := by omega
      simp [hpos, h0]
  have hsorted : List.Sorted raceRel (sortedByMode SortMode.RACE l) :=
    List.sorted_insertionSort raceRel l
  refine ⟨List.perm_insertionSort raceRel l, hsorted, ?_, ?_⟩
  · intro a b ha hb
    unfold raceRel claimRaceRel
    rw [hkey a ha, hkey b hb]
  · intro i j hi hj hdi hdj hlt
    by_contra hij
    push_neg at hij
    have hpos : ∀ (k : Nat) (hk : k < (sortedByMode SortMode.RACE l).length),
        isdigitStr ((sortedByMode SortMode.RACE l).get ⟨k, hk⟩).position = true →
        (raceKey ((sortedByMode SortMode.RACE l).get ⟨k, hk⟩)).1
          = (digitsToNat ((sortedByMode SortMode.RACE l).get ⟨k, hk⟩).position : Int) := by
      intro k hk hdk
      unfold raceKey Session.get_position_number
      simp only [List.get_eq_getElem] at hdk ⊢
      simp [hdk]
    rcases Nat.lt_or_ge j i with hji | hji
    · have hrel : raceRel ((sortedByMode SortMode.RACE l).get ⟨j, hj⟩)
          ((sortedByMode SortMode.RACE l).get ⟨i, hi⟩) :=
        List.Sorted.rel_get_of_lt hsorted hji
      have h1 := keyLe_fst hrel
      rw [hpos j hj hdj, hpos i hi hdi] at h1
      have h2 : digitsToNat ((sortedByMode SortMode.RACE l).get ⟨j, hj⟩).position
          ≤ digitsToNat ((sortedByMode SortMode.RACE l).get ⟨i, hi⟩).position := by
        exact_mod_cast h1
      omega
    · have hje : j = i := by omega
      subst hje
      omega

def raceA : Competitor := { racer_id := ("1").toList, position := ("2").toList }

def raceB : Competitor := { racer_id := ("2").toList, position := ("1").toList }

/-- C5 witness: on a concrete two-entry list with numeric distinct
positions, the smaller position ends up first. -/
theorem C5_race_sort_witness :
    (0 : Nat) < 1
  ∧ (sortedByMode SortMode.RACE [raceA, raceB]).map (fun c => c.position)
      = [("1").toList, ("2").toList] :=
  ⟨(C5_race_sort [raceA, raceB]).2.2.2 0 1 (by decide) (by decide) (by decide) (by decide)
      (by decide), by decide⟩

/-- The two-car scenario frame followed by the qualifying reorder
frame of the spec. -/
def qualFrameA : List Char :=
  ("$A,1,11,T1,Ayrton,Senna,BR,A\n$A,2,22,T2,Alain,Prost,FR,A\n$G,1,1,10,00:20:00.000\n$G,2,2,10,00:20:02.500").toList

def qualFrameB : List Char :=
  ("$H,2,2,8,00:01:28.100\n$H,1,1,9,00:01:29.500\n$RMS,qualifying").toList

def qualReorderRun : RaceTimingHandler := processFrames initialHandler [qualFrameA, qualFrameB]

/-- C7.  Counterexample to the claim as frozen: in the qualifying
reorder scenario the Diff column of row 1 is computed from the total
times (a 2500 millisecond difference), not from the best times, so it
is not format_diff(1400). -/
theorem C7_counterexample :
    (qualReorderRun.competitors_df.getD 1 default).diff = ("+02.500").toList
  ∧ Session.format_time_difference 1400 = ("+01.400").toList
  ∧ (qualReorderRun.competitors_df.getD 1 default).diff ≠ Session.format_time_difference 1400 :=
  ⟨by decide, by decide, by decide⟩

/-- C7 (amended).  QUALIFYING-mode sorting produces a permutation of
the competitor-map values ordered by the pair of best time (infinity
when not positive) and best-position number; in the qualifying reorder
scenario the sorted order becomes racer 2 then racer 1, and the Diff
column of row 1 equals format_diff(2500) = +02.500, the formatted
total-time difference. -/
theorem C7_qualifying_sort (l : List Competitor) :
    (sortedByMode SortMode.QUALIFYING l).Perm l
  ∧ List.Sorted qualRel (sortedByMode SortMode.QUALIFYING l)
  ∧ qualReorderRun.session.sorted_competitors.map (fun c => c.racer_id)
      = [("2").toList, ("1").toList]
  ∧ (qualReorderRun.competitors_df.getD 1 default).diff = Session.format_time_difference 2500
  ∧ Session.format_time_difference 2500 = ("+02.500").toList :=
  ⟨List.perm_insertionSort qualRel l, List.sorted_insertionSort qualRel l,
   by decide, by decide, by decide⟩

theorem dot_not_mem_lapString (n : Int) : ('.') ∉ lapString n := by
  unfold lapString
  intro hmem
  rcases List.mem_cons.mp hmem with hm | hm
  · exact absurd hm (by decide)
  · rcases List.mem_append.mp hm with hm2 | hm2
    · have hd := natToChars_digits n.toNat _ hm2
      simp [Char.isDigit] at hd
    · by_cases h1 : n = 1
      · rw [if_pos h1] at hm2
        exact absurd hm2 (by decide)
      · rw [if_neg h1] at hm2
        exact absurd hm2 (by decide)

theorem format_empty_or_dot (t : Nat) :
    Session.format_time_difference t = [] ∨ ('.') ∈ Session.format_time_difference t := by
  unfold Session.format_time_difference
  by_cases h0 : t = 0
  · left; rw [if_pos h0]
  · right
    rw [if_neg h0]
    simp only []
    split_ifs <;> simp

theorem calc_gaps_getD (l : List Competitor) (i : Nat) (hi : i < l.length) :
    (Session.calculate_gaps_and_diffs l).getD i default
      = (if i = 0 then
           { (l.getD i default) with calculated_gap := [], calculated_diff := [] }
         else if (l.getD i default).total_time_milliseconds = 0 then
           { (l.getD i default) with calculated_gap := [], calculated_diff := [] }
         else
           { (l.getD i default) with
             calculated_gap := Session.calculate_time_difference (l.getD i default)
               (l.getD (i - 1) default) (l.getD i default).best_time_milliseconds,
             calculated_diff := Session.calculate_time_difference (l.getD i default)
               (l.getD 0 default) (l.getD i default).best_time_milliseconds }) := by
  have hlen : i < (Session.calculate_gaps_and_diffs l).length := by
    simp only [Session.calculate_gaps_and_diffs, List.length_map, List.enum_length]
    omega
  rw [List.getD_eq_getElem _ _ hlen, List.getD_eq_getElem _ _ hi]
  unfold Session.calculate_gaps_and_diffs
  simp only [List.getElem_map, List.getElem_enum]

/-- C6.  After sorting, the leader row gets empty gap and diff; a row
with a zero total gets empty gap and diff; every other row i gets gap
and diff computed against row i-1 and row 0 through
calculate_time_difference, which returns the empty string when the
faster total is 0, returns the lap string exactly when the lap
difference is positive, the slower best time positive and the signed
total difference above that best time (lap strings contain no dot
while every non-empty formatted difference does), and otherwise the
formatted absolute total difference. -/
theorem C6_gaps_and_diffs :
    (∀ l : List Competitor, (Session.calculate_gaps_and_diffs l).length = l.length)
  ∧ (∀ l : List Competitor, l ≠ [] →
      ((Session.calculate_gaps_and_diffs l).getD 0 default).calculated_gap = [] ∧
      ((Session.calculate_gaps_and_diffs l).getD 0 default).calculated_diff = [])
  ∧ (∀ (l : List Competitor) (i : Nat), 1 ≤ i → i < l.length →
      ((l.getD i default).total_time_milliseconds = 0 →
        ((Session.calculate_gaps_and_diffs l).getD i default).calculated_gap = [] ∧
        ((Session.calculate_gaps_and_diffs l).getD i default).calculated_diff = []) ∧
      ((l.getD i default).total_time_milliseconds ≠ 0 →
        ((Session.calculate_gaps_and_diffs l).getD i default).calculated_gap
          = Session.calculate_time_difference (l.getD i default) (l.getD (i - 1) default)
              (l.getD i default).best_time_milliseconds ∧
        ((Session.calculate_gaps_and_diffs l).getD i default).calculated_diff
          = Session.calculate_time_difference (l.getD i default) (l.getD 0 default)
              (l.getD i default).best_time_milliseconds))
  ∧ (∀ (slower faster : Competitor) (b : Int), faster.total_time_milliseconds = 0 →
      Session.calculate_time_difference slower faster b = [])
  ∧ (∀ (slower faster : Competitor) (b : Int), faster.total_time_milliseconds ≠ 0 →
      (((if isdigitStr faster.laps then (digitsToNat faster.laps : Int) else 0) -
          (if isdigitStr slower.laps then (digitsToNat slower.laps : Int) else 0) > 0 ∧
        b > 0 ∧
        slower.total_time_milliseconds - faster.total_time_milliseconds > b) →
        Session.calculate_time_difference slower faster b
          = lapString ((if isdigitStr faster.laps then (digitsToNat faster.laps : Int) else 0) -
              (if isdigitStr slower.laps then (digitsToNat slower.laps : Int) else 0))) ∧
      (¬ ((if isdigitStr faster.laps then (digitsToNat faster.laps : Int) else 0) -
          (if isdigitStr slower.laps then (digitsToNat slower.laps : Int) else 0) > 0 ∧
        b > 0 ∧
        slower.total_time_milliseconds - faster.total_time_milliseconds > b) →
        Session.calculate_time_difference slower faster b
          = Session.format_time_difference
              (slower.total_time_milliseconds - faster.total_time_milliseconds).natAbs))
  ∧ (∀ n : Int, ('.') ∉ lapString n)
  ∧ (∀ t : Nat,
      Session.format_time_difference t = [] ∨ ('.') ∈ Session.format_time_difference t) := by
  refine ⟨?_, ?_, ?_, ?_, ?_, dot_not_mem_lapString, format_empty_or_dot⟩
  · intro l
    simp [Session.calculate_gaps_and_diffs]
  · intro l hl
    have h0 : 0 < l.length := List.length_pos.mpr hl
    rw [calc_gaps_getD l 0 h0]
    simp
  · intro l i h1 h2
    constructor
    · intro hz
      rw [calc_gaps_getD l i h2]
      rw [if_neg (by omega), if_pos hz]
      exact ⟨rfl, rfl⟩
    · intro hz
      rw [calc_gaps_getD l i h2]
      rw [if_neg (by omega), if_neg hz]
      exact ⟨rfl, rfl⟩
  · intro slower faster b hf
    unfold Session.calculate_time_difference
    rw [if_pos hf]
  · intro slower faster b hf
    constructor
    · intro hcond
      unfold Session.calculate_time_difference
      rw [if_neg hf]
      simp only []
      rw [if_pos hcond]
    · intro hcond
      unfold Session.calculate_time_difference
      rw [if_neg hf]
      simp only []
      rw [if_neg hcond]

def gapA : Competitor :=
  { racer_id := ("1").toList, laps := ("10").toList,
    total_time_milliseconds := 1200000, best_time_milliseconds := 90000 }

def gapB : Competitor :=
  { racer_id := ("2").toList, laps := ("10").toList,
    total_time_milliseconds := 1202500, best_time_milliseconds := 88100 }

/-- C6 witness: the second row of a concrete two-entry sorted list
receives its gap from calculate_time_difference against the leader. -/
theorem C6_gaps_and_diffs_witness :
    ((Session.calculate_gaps_and_diffs [gapA, gapB]).getD 1 default).calculated_gap
      = Session.calculate_time_difference ([gapA, gapB].getD 1 default)
          ([gapA, gapB].getD 0 default) ([gapA, gapB].getD 1 default).best_time_milliseconds
  ∧ (1 : Nat) < 2 :=
  ⟨((C6_gaps_and_diffs.2.2.1 [gapA, gapB] 1 (by decide) (by decide)).2 (by decide)).1,
   by decide⟩

/-! Invariant machinery shared by the map-shape claims: every entry of
the competitor map keeps its key as racer_id and keeps both derived
millisecond fields equal to the codec value of the stored strings. -/

theorem assocFind_mem {β : Type} {m : List (List Char × β)} {k : List Char} {v : β}
    (h : assocFind m k = some v) : (k, v) ∈ m := by
  induction m with
  | nil => simp [assocFind] at h
  | cons p t ih =>
    rcases p with ⟨k0, v0⟩
    by_cases hk : k0 = k
    · simp only [assocFind, if_pos hk] at h
      subst hk
      injection h with h
      subst h
      exact List.mem_cons_self _ _
    · simp only [assocFind, if_neg hk] at h
      exact List.mem_cons_of_mem _ (ih h)

theorem assocSet_mem {β : Type} {m : List (List Char × β)} {k : List Char} {v : β}
    {p : List Char × β} (h : p ∈ assocSet m k v) : p ∈ m ∨ p = (k, v) := by
  induction m with
  | nil =>
    simp only [assocSet] at h
    rcases List.mem_cons.mp h with h1 | h1
    · right; exact h1
    · cases h1
  | cons q t ih =>
    rcases q with ⟨k0, v0⟩
    by_cases hk : k0 = k
    · simp only [assocSet, if_pos hk] at h
      rcases List.mem_cons.mp h with h1 | h1
      · right; rw [h1, hk]
      · left; exact List.mem_cons_of_mem _ h1
    · simp only [assocSet, if_neg hk] at h
      rcases List.mem_cons.mp h with h1 | h1
      · left; exact h1 ▸ List.mem_cons_self _ _
      · rcases ih h1 with h2 | h2
        · left; exact List.mem_cons_of_mem _ h2
        · right; exact h2

/-- The invariant carried by every competitor-map entry. -/
def GoodEntry (p : List Char × Competitor) : Prop :=
  p.2.racer_id = p.1 ∧
  p.2.total_time_milliseconds = Competitor.convert_time_to_milliseconds p.2.total_time ∧
  p.2.best_time_milliseconds = Competitor.convert_time_to_milliseconds p.2.best_time

/-- The invariant over a whole session. -/
def GoodSession (s : Session) : Prop := ∀ p ∈ s.competitors, GoodEntry p

theorem set_total_time_good {rid : List Char} {c : Competitor} (hg : GoodEntry (rid, c))
    (t : List Char) : GoodEntry (rid, c.set_total_time t) := by
  unfold Competitor.set_total_time
  by_cases ht : t ≠ [] ∧ t ≠ sentinelTime
  · rw [if_pos ht]
    exact ⟨hg.1, rfl, hg.2.2⟩
  · rw [if_neg ht]
    refine ⟨hg.1, ?_, hg.2.2⟩
    have hte : t = [] ∨ t = sentinelTime := by
      by_cases h1 : t = []
      · left; exact h1
      · right
        by_contra h2
        exact ht ⟨h1, h2⟩
    show (0 : Int) = Competitor.convert_time_to_milliseconds t
    unfold Competitor.convert_time_to_milliseconds
    rw [if_pos hte]

theorem set_best_time_good {rid : List Char} {c : Competitor} (hg : GoodEntry (rid, c))
    (t : List Char) : GoodEntry (rid, c.set_best_time t) := by
  unfold Competitor.set_best_time
  by_cases ht : t ≠ [] ∧ t ≠ sentinelTime
  · rw [if_pos ht]
    exact ⟨hg.1, hg.2.1, rfl⟩
  · rw [if_neg ht]
    refine ⟨hg.1, hg.2.1, ?_⟩
    have hte : t = [] ∨ t = sentinelTime := by
      by_cases h1 : t = []
      · left; exact h1
      · right
        by_contra h2
        exact ht ⟨h1, h2⟩
    show (0 : Int) = Competitor.convert_time_to_milliseconds t
    unfold Competitor.convert_time_to_milliseconds
    rw [if_pos hte]

theorem updateCompetitor_good {s : Session} {rid : List Char} {f : Competitor → Competitor}
    (hs : GoodSession s)
    (hf : ∀ c : Competitor, GoodEntry (rid, c) → GoodEntry (rid, f c)) :
    GoodSession (s.updateCompetitor rid f) := by
  intro p hp
  unfold Session.updateCompetitor at hp
  rcases hfind : assocFind s.competitors rid with _ | c0
  · simp only [hfind] at hp
    rcases assocSet_mem hp with h1 | h1
    · exact hs p h1
    · subst h1
      refine hf _ ⟨rfl, ?_, ?_⟩
      · show (0 : Int) = Competitor.convert_time_to_milliseconds []
        decide
      · show (0 : Int) = Competitor.convert_time_to_milliseconds []
        decide
  · simp only [hfind] at hp
    rcases assocSet_mem hp with h1 | h1
    · exact hs p h1
    · subst h1
      exact hf c0 (hs _ (assocFind_mem hfind))

theorem good_race_progress {s : Session} (hs : GoodSession s) (e : List (List Char)) :
    GoodSession (s.handle_race_progress_data e) := by
  unfold Session.handle_race_progress_data
  split
  · intro p hp; exact hs p hp
  · exact hs

theorem good_driver {s : Session} (hs : GoodSession s) (e : List (List Char)) :
    GoodSession (s.handle_driver_data e) := by
  unfold Session.handle_driver_data
  split
  · refine updateCompetitor_good hs ?_
    intro c hg
    exact ⟨hg.1, hg.2.1, hg.2.2⟩
  · exact hs

theorem good_race_session {s : Session} (hs : GoodSession s) (e : List (List Char)) :
    GoodSession (s.handle_race_session_data e) := by
  unfold Session.handle_race_session_data
  split
  · intro p hp; exact hs p hp
  · exact hs

theorem good_race_class {s : Session} (hs : GoodSession s) (e : List (List Char)) :
    GoodSession (s.handle_race_class_data e) := by
  unfold Session.handle_race_class_data
  split
  · intro p hp; exact hs p hp
  · exact hs

theorem good_extended_driver {s : Session} (hs : GoodSession s) (e : List (List Char)) :
    GoodSession (s.handle_extended_driver_data e) := by
  unfold Session.handle_extended_driver_data
  split
  · refine updateCompetitor_good hs ?_
    intro c hg
    exact ⟨hg.1, hg.2.1, hg.2.2⟩
  · exact hs

theorem good_track {s : Session} (hs : GoodSession s) (e : List (List Char)) :
    GoodSession (s.handle_track_data e) := by
  unfold Session.handle_track_data
  split
  · split
    · intro p hp; exact hs p hp
    · split
      · intro p hp; exact hs p hp
      · exact hs
  · exact hs

theorem good_race_position {s : Session} (hs : GoodSession s) (e : List (List Char)) :
    GoodSession (s.handle_race_position_data e) := by
  unfold Session.handle_race_position_data
  split
  · refine updateCompetitor_good hs ?_
    intro c hg
    simp only []
    refine set_total_time_good ?_ _
    split
    · exact ⟨hg.1, hg.2.1, hg.2.2⟩
    · exact ⟨hg.1, hg.2.1, hg.2.2⟩
  · exact hs

theorem good_best_lap {s : Session} (hs : GoodSession s) (e : List (List Char)) :
    GoodSession (s.handle_best_lap_time_data e) := by
  unfold Session.handle_best_lap_time_data
  split
  · refine updateCompetitor_good hs ?_
    intro c hg
    simp only []
    refine set_best_time_good ?_ _
    split
    · exact ⟨hg.1, hg.2.1, hg.2.2⟩
    · exact ⟨hg.1, hg.2.1, hg.2.2⟩
  · exact hs

theorem good_last_lap {s : Session} (hs : GoodSession s) (e : List (List Char)) :
    GoodSession (s.handle_last_lap_time_data e) := by
  unfold Session.handle_last_lap_time_data
  split
  · refine updateCompetitor_good hs ?_
    intro c hg
    have hgood := set_total_time_good (c := { c with last_lap_time := e.getD 2 [] })
      ⟨hg.1, hg.2.1, hg.2.2⟩ (e.getD 3 [])
    exact ⟨hgood.1, hgood.2.1, hgood.2.2⟩
  · exact hs

theorem good_sort_mode {s : Session} (hs : GoodSession s) (e : List (List Char)) :
    GoodSession (s.handle_sort_mode_data e) := by
  unfold Session.handle_sort_mode_data
  split
  · split
    · intro p hp; exact hs p hp
    · intro p hp; exact hs p hp
  · exact hs

theorem good_reset {s : Session} (hs : GoodSession s) : GoodSession s.reset_session := by
  intro p hp
  cases hp

theorem good_dispatch {s : Session} (hs : GoodSession s) (es : List (List Char)) :
    GoodSession (s.dispatchCommand es) := by
  unfold Session.dispatchCommand
  by_cases h0 : es = []
  · rw [if_pos h0]; exact hs
  rw [if_neg h0]
  by_cases h1 : es.getD 0 [] = ("$F").toList
  · rw [if_pos h1]; exact good_race_progress hs _
  rw [if_neg h1]
  by_cases h2 : es.getD 0 [] = ("$A").toList
  · rw [if_pos h2]; exact good_driver hs _
  rw [if_neg h2]
  by_cases h3 : es.getD 0 [] = ("$B").toList
  · rw [if_pos h3]; exact good_race_session hs _
  rw [if_neg h3]
  by_cases h4 : es.getD 0 [] = ("$C").toList
  · rw [if_pos h4]; exact good_race_class hs _
  rw [if_neg h4]
  by_cases h5 : es.getD 0 [] = ("$COMP").toList
  · rw [if_pos h5]; exact good_extended_driver hs _
  rw [if_neg h5]
  by_cases h6 : es.getD 0 [] = ("$E").toList
  · rw [if_pos h6]; exact good_track hs _
  rw [if_neg h6]
  by_cases h7 : es.getD 0 [] = ("$G").toList
  · rw [if_pos h7]; exact good_race_position hs _
  rw [if_neg h7]
  by_cases h8 : es.getD 0 [] = ("$H").toList
  · rw [if_pos h8]; exact good_best_lap hs _
  rw [if_neg h8]
  by_cases h9 : es.getD 0 [] = ("$I").toList
  · rw [if_pos h9]; exact good_reset hs
  rw [if_neg h9]
  by_cases h10 : es.getD 0 [] = ("$J").toList
  · rw [if_pos h10]; exact good_last_lap hs _
  rw [if_neg h10]
  by_cases h11 : es.getD 0 [] = ("$RMS").toList
  · rw [if_pos h11]; exact good_sort_mode hs _
  rw [if_neg h11]
  exact hs

theorem good_processLine {s : Session} (hs : GoodSession s) (line : List Char) :
    GoodSession (s.processLine line) := by
  unfold Session.processLine
  exact good_dispatch hs _

theorem good_foldl_lines (ls : List (List Char)) : ∀ (s : Session) (b : Bool),
    GoodSession s →
    GoodSession ((ls.foldl (fun acc line => if pyStrip line = [] then acc
      else (acc.1.processLine line, true)) (s, b)).1) := by
  induction ls with
  | nil => intro s b hs; exact hs
  | cons l rest ih =>
    intro s b hs
    by_cases hl : pyStrip l = []
    · simp only [List.foldl_cons, if_pos hl]
      exact ih s b hs
    · simp only [List.foldl_cons, if_neg hl]
      exact ih _ true (good_processLine hs l)

theorem good_process_data {h : RaceTimingHandler} (hs : GoodSession h.session)
    (dat : List Char) : GoodSession ((h.process_data dat).1).session := by
  have hlines : GoodSession (h.session.processLines dat).1 := by
    unfold Session.processLines
    exact good_foldl_lines _ _ _ hs
  unfold RaceTimingHandler.process_data
  rcases hp : h.session.processLines dat with ⟨s1, u⟩
  have hs1 : GoodSession s1 := by rw [hp] at hlines; exact hlines
  cases u
  · exact hs1
  · intro p hp2
    exact hs1 p hp2

theorem good_processFrames (frames : List (List Char)) :
    ∀ h : RaceTimingHandler, GoodSession h.session →
      GoodSession (processFrames h frames).session := by
  induction frames with
  | nil => intro h hs; exact hs
  | cons f rest ih =>
    intro h hs
    exact ih _ (good_process_data hs f)

theorem good_initial : GoodSession initialHandler.session := by
  intro p hp
  cases hp

/-- C2.  Counterexample to the claim as frozen: the position record
with total time 00:00:00.000 stores a total of 0 milliseconds while
the stored string is neither empty nor the sentinel, so the claimed
biconditional fails. -/
theorem C2_counterexample :
    ((processFrames initialHandler [("$G,1,1,10,00:00:00.000").toList]).session.competitors.map
        (fun p => (p.2.total_time_milliseconds, p.2.total_time)))
      = [((0 : Int), ("00:00:00.000").toList)]
  ∧ ("00:00:00.000").toList ≠ ([] : List Char)
  ∧ ("00:00:00.000").toList ≠ sentinelTime :=
  ⟨by decide, by decide, by decide⟩

/-- C2 (amended).  After any sequence of frames from the initial
state, every competitor-map entry keeps total_time_milliseconds equal
to the codec value of total_time and best_time_milliseconds equal to
the codec value of best_time; hence the millisecond field is 0 exactly
when the stored string parses to 0 (empty, the sentinel, or any other
string the codec maps to 0, such as 00:00:00.000). -/
theorem C2_time_consistency (frames : List (List Char)) (p : List Char × Competitor)
    (hp : p ∈ (processFrames initialHandler frames).session.competitors) :
    p.2.total_time_milliseconds = Competitor.convert_time_to_milliseconds p.2.total_time ∧
    p.2.best_time_milliseconds = Competitor.convert_time_to_milliseconds p.2.best_time :=
  ⟨(good_processFrames frames initialHandler good_initial p hp).2.1,
   (good_processFrames frames initialHandler good_initial p hp).2.2⟩

def c2entry : List Char × Competitor :=
  (processFrames initialHandler
    [("$G,1,1,10,00:20:00.000").toList]).session.competitors.getD 0 default

/-- C2 witness: the single entry produced by one position record
satisfies both codec equations. -/
theorem C2_time_consistency_witness :
    c2entry.2.total_time_milliseconds
      = Competitor.convert_time_to_milliseconds c2entry.2.total_time ∧
    c2entry.2.best_time_milliseconds
      = Competitor.convert_time_to_milliseconds c2entry.2.best_time :=
  C2_time_consistency [("$G,1,1,10,00:20:00.000").toList] c2entry (by decide)

/-- C10.  After any sequence of frames from the initial state, every
key of the competitor map stores a Competitor whose racer_id equals
that key: entries are created only through get_competitor with the key
as racer_id and no handler reassigns racer_id. -/
theorem C10_racer_id_key (frames : List (List Char)) (p : List Char × Competitor)
    (hp : p ∈ (processFrames initialHandler frames).session.competitors) :
    p.2.racer_id = p.1 :=
  (good_processFrames frames initialHandler good_initial p hp).1

def c10entry : List Char × Competitor :=
  (processFrames initialHandler
    [("$A,7,12,T7,Max,Verstappen,NL,A").toList]).session.competitors.getD 0 default

/-- C10 witness: the entry created by one driver record is keyed by
its racer_id. -/
theorem C10_racer_id_key_witness : c10entry.2.racer_id = c10entry.1 :=
  C10_racer_id_key [("$A,7,12,T7,Max,Verstappen,NL,A").toList] c10entry (by decide)
